import Mathlib

/-!
# A verification development for the RTA wildlife-camera alerting pipeline

Shallow embedding of the core components of the RTA repository:

* the alert triage engine (`app/core/alerts.py`);
* the chunked clip-ingestion protocol (`app/routes/websocket.py`);
* the websocket connection manager (`app/core/websocket_manager.py`);
* the adaptive inference throttle (`app/core/realtime_yolo.py`);
* the clip-processing worker (`app/routes/websocket.py` and
  `app/core/yolo_runner.py`).

Python dicts are modelled as association lists where an update prepends a
binding and lookup returns the most recent one; wall-clock timestamps are
modelled as natural numbers (minutes, matching the cooldown arithmetic of
`alerts.py`) or rationals (seconds, for the throttle); detection confidences
are rationals; byte strings are lists of naturals.
-/

set_option maxRecDepth 4000

namespace RTA

/-! ## Dictionary model -/

/-- Lookup in a Python-dict modelled as an association list: the most recently
inserted binding (which is at the front) wins. -/
def dictLookup {α : Type} (d : List (String × α)) (key : String) : Option α :=
  (d.find? (fun p => p.1 == key)).map Prod.snd

/-- `d[key] = v` for a Python dict: prepend, shadowing any previous binding. -/
def dictInsert {α : Type} (d : List (String × α)) (key : String) (v : α) :
    List (String × α) :=
  (key, v) :: d

/-- `d.pop(key, None)`: drop the binding for `key` (all shadowed copies of it). -/
def dictPop {α : Type} (d : List (String × α)) (key : String) : List (String × α) :=
  d.filter (fun p => !(p.1 == key))

theorem dictLookup_insert_self {α : Type} (d : List (String × α)) (key : String)
    (v : α) : dictLookup (dictInsert d key v) key = some v := by
  simp [dictLookup, dictInsert, List.find?]

theorem dictLookup_insert_ne {α : Type} (d : List (String × α)) (key key' : String)
    (v : α) (h : key ≠ key') : dictLookup (dictInsert d key v) key' = dictLookup d key' := by
  simp only [dictLookup, dictInsert, List.find?]
  have : (key == key') = false := by
    simpa using h
  simp [this]

/-! ## Alert triage engine (`app/core/alerts.py`)

`_alert_cache` maps string keys of the form `"civilian_" ++ location` and
`"official_" ++ location` to the time of the last send on that channel for
that location.  `ALERT_COOLDOWN_MINUTES = 5`; time is in minutes.  Python's
`current_time - last_alert < timedelta(minutes=5)` is also `True` for a
negative difference, which agrees with truncated `Nat` subtraction
(`t - last = 0 < 5`).
-/

def ALERT_COOLDOWN_MINUTES : ℕ := 5

/-- Keys of the `DANGEROUS_ANIMALS` table (elephant, leopard, rhino, tiger). -/
def isDangerousAnimal (classId : ℤ) : Bool :=
  classId == 0 || classId == 1 || classId == 2 || classId == 3

/-- Keys of the `ENDANGERED_ANIMALS` table (red panda). -/
def isEndangeredAnimal (classId : ℤ) : Bool :=
  classId == 4

/-- One detection as handed to `send_alert_message`. -/
structure Detection where
  classId : ℤ
  confidence : ℚ
deriving DecidableEq

/-- Notification channels of the triage engine. -/
inductive Channel
  | civilian
  | official
deriving DecidableEq

/-- One attempted alert send (`_send_civilian_alert` / `_send_official_alert`). -/
structure AlertEvent where
  channel : Channel
  location : String
  classId : ℤ
  confidence : ℚ
  time : ℕ
deriving DecidableEq

/-- The module-level `_alert_cache` dict. -/
abbrev AlertCache := List (String × ℕ)

/-- `_can_send_civilian_alert`. -/
def can_send_civilian_alert (cache : AlertCache) (location : String) (t : ℕ) : Bool :=
  match dictLookup cache ("civilian_" ++ location) with
  | some last => ! decide (t - last < ALERT_COOLDOWN_MINUTES)
  | none => true

/-- `_can_send_official_alert`. -/
def can_send_official_alert (cache : AlertCache) (location : String) (t : ℕ) : Bool :=
  match dictLookup cache ("official_" ++ location) with
  | some last => ! decide (t - last < ALERT_COOLDOWN_MINUTES)
  | none => true

/-- `_update_alert_cache`. -/
def update_alert_cache (cache : AlertCache) (location : String) (t : ℕ) : AlertCache :=
  dictInsert cache ("civilian_" ++ location) t

/-- `_update_official_alert_cache`. -/
def update_official_alert_cache (cache : AlertCache) (location : String) (t : ℕ) :
    AlertCache :=
  dictInsert cache ("official_" ++ location) t

/-- The `for detection in detections` loop of `_process_dangerous_animal_alerts`.
`canCiv` is `can_alert_civilians`, computed once before the loop; each
iteration always sends an official alert, and additionally sends a civilian
alert and refreshes the civilian cache entry when `canCiv` holds. -/
def process_dangerous_loop (canCiv : Bool) (location : String) (t : ℕ) :
    List Detection → AlertCache → List AlertEvent × AlertCache
  | [], cache => ([], cache)
  | d :: ds, cache =>
    if canCiv then
      let cache1 := update_alert_cache cache location t
      let rest := process_dangerous_loop canCiv location t ds cache1
      (⟨.official, location, d.classId, d.confidence, t⟩ ::
        ⟨.civilian, location, d.classId, d.confidence, t⟩ :: rest.1, rest.2)
    else
      let rest := process_dangerous_loop canCiv location t ds cache
      (⟨.official, location, d.classId, d.confidence, t⟩ :: rest.1, rest.2)

/-- `_process_dangerous_animal_alerts`. -/
def process_dangerous_animal_alerts (cache : AlertCache) (location : String)
    (dets : List Detection) (t : ℕ) : List AlertEvent × AlertCache :=
  process_dangerous_loop (can_send_civilian_alert cache location t) location t dets cache

/-- The `for detection in detections` loop of `_process_endangered_animal_alerts`.
`canOff` is `can_alert_officials`, computed once before the loop; each
iteration sends an official alert and refreshes the official cache entry when
`canOff` holds, and sends nothing otherwise. -/
def process_endangered_loop (canOff : Bool) (location : String) (t : ℕ) :
    List Detection → AlertCache → List AlertEvent × AlertCache
  | [], cache => ([], cache)
  | d :: ds, cache =>
    if canOff then
      let cache1 := update_official_alert_cache cache location t
      let rest := process_endangered_loop canOff location t ds cache1
      (⟨.official, location, d.classId, d.confidence, t⟩ :: rest.1, rest.2)
    else
      process_endangered_loop canOff location t ds cache

/-- `_process_endangered_animal_alerts`. -/
def process_endangered_animal_alerts (cache : AlertCache) (location : String)
    (dets : List Detection) (t : ℕ) : List AlertEvent × AlertCache :=
  process_endangered_loop (can_send_official_alert cache location t) location t dets cache

/-- The categorisation loop of `send_alert_message`: `if class_id in
DANGEROUS_ANIMALS and confidence >= 0.50 … elif class_id in ENDANGERED_ANIMALS
and confidence >= 0.50 …`. -/
def categorize_detections : List Detection → List Detection × List Detection
  | [] => ([], [])
  | d :: ds =>
    let rest := categorize_detections ds
    if isDangerousAnimal d.classId && decide ((1 : ℚ)/2 ≤ d.confidence) then
      (d :: rest.1, rest.2)
    else if isEndangeredAnimal d.classId && decide ((1 : ℚ)/2 ≤ d.confidence) then
      (rest.1, d :: rest.2)
    else rest

/-- `send_alert_message` for one camera whose record resolves to `location`:
categorise the detections, then run the dangerous-animal path (when its bucket
is non-empty) followed by the endangered-animal path (when its bucket is
non-empty), threading the alert cache through.  Returns the attempted sends in
order together with the final cache. -/
def send_alert_message (cache : AlertCache) (location : String)
    (dets : List Detection) (t : ℕ) : List AlertEvent × AlertCache :=
  let buckets := categorize_detections dets
  let stage1 :=
    if buckets.1.isEmpty then ([], cache)
    else process_dangerous_animal_alerts cache location buckets.1 t
  let stage2 :=
    if buckets.2.isEmpty then ([], stage1.2)
    else process_endangered_animal_alerts stage1.2 location buckets.2 t
  (stage1.1 ++ stage2.1, stage2.2)

/-- Boolean equality of channels. -/
def channelEq : Channel → Channel → Bool
  | .civilian, .civilian => true
  | .official, .official => true
  | _, _ => false

/-- Number of attempted sends on a given channel. -/
def countChannel (ch : Channel) (evs : List AlertEvent) : ℕ :=
  (evs.filter (fun e => channelEq e.channel ch)).length

/-! ## Clip ingestion protocol (`app/routes/websocket.py`)

`pending_video_data` maps a camera token to its in-progress clip assembly;
`video_processing_queue` is the FIFO of `InferenceTask`s (a `put` appends at
the tail).  Binary payloads are lists of byte values.
-/

/-- One entry of `pending_video_data` (the clip metadata dict itself is kept
only to be copied into the task; its fields beyond `clipNumber` do not affect
control flow and are not modelled). -/
structure PendingClip where
  clipNumber : ℕ
  chunks : List (List ℕ)
  expectedChunks : ℕ
  receivedChunks : ℕ
deriving DecidableEq

/-- A task placed on `video_processing_queue` by `finalize_video_clip`. -/
structure InferenceTask where
  token : String
  videoData : List ℕ
  clipNumber : ℕ
deriving DecidableEq

/-- The mutable ingestion state of `app/routes/websocket.py`. -/
structure IngestState where
  pending : List (String × PendingClip)
  queue : List InferenceTask
  clipsReceived : ℕ
deriving DecidableEq

/-- Messages a camera socket can deliver: the three JSON control messages
handled by `handle_camera_text_message` (`video_metadata`, `video_chunk`,
`video_complete`) and a raw binary chunk. -/
inductive CameraMessage
  | videoMetadata (clipNumber : ℕ) (size : ℕ)
  | videoChunkInfo (clipNumber : ℕ) (totalChunks : ℕ)
  | videoComplete (clipNumber : ℕ)
  | binaryChunk (data : List ℕ)
deriving DecidableEq

/-- One slice assignment `assembled_video[offset:offset+len(chunk)] = chunk`
on a buffer that is long enough. -/
def writeChunkAt (buf : List ℕ) (offset : ℕ) (chunk : List ℕ) : List ℕ :=
  buf.take offset ++ chunk ++ buf.drop (offset + chunk.length)

/-- The assembly loop of `finalize_video_clip`: write each chunk at the
running offset. -/
def assembleInto : List (List ℕ) → List ℕ → ℕ → List ℕ
  | [], buf, _ => buf
  | c :: cs, buf, offset => assembleInto cs (writeChunkAt buf offset c) (offset + c.length)

/-- Chunk assembly in `finalize_video_clip`: preallocate
`bytearray(total_size)` (zeros) and copy every chunk in at its offset. -/
def assemble_chunks (chunks : List (List ℕ)) : List ℕ :=
  assembleInto chunks (List.replicate (chunks.map List.length).sum 0) 0

/-- `finalize_video_clip`: no pending entry, or a clip-number mismatch, leaves
the state unchanged (only a warning is printed); on a match the chunks are
assembled, a task is enqueued, and the pending entry is popped. -/
def finalize_video_clip (st : IngestState) (token : String) (clipNumber : ℕ) :
    IngestState :=
  match dictLookup st.pending token with
  | none => st
  | some pc =>
    if pc.clipNumber ≠ clipNumber then st
    else
      { st with
        queue := st.queue ++ [⟨token, assemble_chunks pc.chunks, clipNumber⟩],
        pending := dictPop st.pending token }

/-- `handle_camera_text_message`. -/
def handle_camera_text_message (st : IngestState) (token : String) :
    CameraMessage → IngestState
  | .videoMetadata clipNumber _size =>
    { st with
      pending := dictInsert st.pending token ⟨clipNumber, [], 0, 0⟩,
      clipsReceived := st.clipsReceived + 1 }
  | .videoChunkInfo clipNumber totalChunks =>
    match dictLookup st.pending token with
    | some pc =>
      if pc.clipNumber = clipNumber then
        { st with
          pending := dictInsert st.pending token { pc with expectedChunks := totalChunks } }
      else st
    | none => st
  | .videoComplete clipNumber => finalize_video_clip st token clipNumber
  | .binaryChunk _ => st

/-- `handle_camera_binary_message`: a chunk with no open clip is discarded
with a warning; otherwise it is appended to the pending clip's chunk list. -/
def handle_camera_binary_message (st : IngestState) (token : String)
    (chunk : List ℕ) : IngestState :=
  match dictLookup st.pending token with
  | none => st
  | some pc =>
    { st with
      pending := dictInsert st.pending token
        { pc with
          chunks := pc.chunks ++ [chunk],
          receivedChunks := pc.receivedChunks + 1 } }

/-- The dispatch in `camera_websocket`'s receive loop: text messages go to
`handle_camera_text_message`, binary payloads to
`handle_camera_binary_message`. -/
def camera_message_step (st : IngestState) (token : String) :
    CameraMessage → IngestState
  | .binaryChunk data => handle_camera_binary_message st token data
  | m => handle_camera_text_message st token m

/-- Sequentially process the camera's messages in arrival order. -/
def camera_message_run (st : IngestState) (token : String)
    (msgs : List CameraMessage) : IngestState :=
  msgs.foldl (fun s m => camera_message_step s token m) st

/-! ## Connection manager (`app/core/websocket_manager.py`) -/

/-- The `client_state` of a starlette websocket, as far as the manager
inspects it. -/
inductive WSClientState
  | connected
  | disconnected
deriving DecidableEq

/-- A camera-side websocket transport. -/
structure Transport where
  id : ℕ
  clientState : WSClientState
deriving DecidableEq

/-- A `close(code=…)` call recorded against a transport. -/
structure CloseEvent where
  transportId : ℕ
  code : ℕ
deriving DecidableEq

/-- The close code used when a camera connection is replaced by a newer one. -/
def CLOSE_CODE_SUPERSEDED : ℕ := 4000

/-- A viewer-side websocket transport; `sendOk = false` means a send on it
raises. -/
structure ViewerTransport where
  id : ℕ
  clientState : WSClientState
  sendOk : Bool
deriving DecidableEq

/-- The mutable maps of `ConnectionManager`. -/
structure ConnectionManagerState where
  activeConnections : List (String × Transport)
  viewers : List (String × List ViewerTransport)
deriving DecidableEq

/-- `ConnectionManager.connect_camera`: if a transport is already registered
for the token *and its client state is CONNECTED*, close it with code 4000;
then install the new transport and `setdefault` an empty viewer list.
Returns the new state and the close calls issued. -/
def connect_camera (st : ConnectionManagerState) (ws : Transport) (token : String) :
    ConnectionManagerState × List CloseEvent :=
  let closes :=
    match dictLookup st.activeConnections token with
    | some oldWs =>
      if oldWs.clientState = .connected then [⟨oldWs.id, CLOSE_CODE_SUPERSEDED⟩] else []
    | none => []
  ({ activeConnections := dictInsert st.activeConnections token ws,
     viewers :=
       match dictLookup st.viewers token with
       | some _ => st.viewers
       | none => dictInsert st.viewers token [] },
   closes)

/-- The `for ws in self.viewers[camera_token]` loop of `broadcast_to_viewers`:
a viewer whose client state is not CONNECTED is skipped with a warning (and
*not* removed); a send that raises puts the viewer on the `disconnected`
list; a successful send delivers the payload.  Returns the ids delivered to
and the `disconnected` list, in loop order. -/
def broadcast_loop : List ViewerTransport → List ℕ × List ViewerTransport
  | [] => ([], [])
  | ws :: rest =>
    let r := broadcast_loop rest
    if ws.clientState ≠ .connected then r
    else if ws.sendOk then (ws.id :: r.1, r.2)
    else (r.1, ws :: r.2)

/-- `ConnectionManager.broadcast_to_viewers`: run the send loop, then remove
each dead socket from the viewer list (`list.remove`, first occurrence,
absence swallowed).  Exceptions from individual sends are caught inside the
loop and never propagate: the function is total and returns the updated
viewer map together with the ids the payload was delivered to. -/
def broadcast_to_viewers (viewers : List (String × List ViewerTransport))
    (token : String) : List (String × List ViewerTransport) × List ℕ :=
  match dictLookup viewers token with
  | none => (viewers, [])
  | some vs =>
    let r := broadcast_loop vs
    (dictInsert viewers token (r.2.foldl (fun acc ws => acc.erase ws) vs), r.1)

/-! ## Adaptive inference throttle (`app/core/realtime_yolo.py`)

Times are rationals in seconds.  A `last_detections[camera]['timestamp']` of
`0` is the cold-start sentinel set when a camera is first seen.
-/

def TARGET_FPS : ℕ := 30
def MIN_INFERENCE_INTERVAL : ℕ := 5
def MAX_INFERENCE_INTERVAL : ℕ := 30
def DETECTION_CACHE_DURATION : ℚ := 2

/-- `RealtimeYOLOProcessor._adaptive_inference_adjustment`.  The local
`target_time_per_frame = 1.0 / target_fps` is inlined; the interval is a
Python `int`, and `max(interval - 1, 5)` agrees with truncated `Nat`
subtraction for every value that can occur. -/
def adaptive_inference_adjustment (interval : ℕ) (inferenceTime : ℚ) : ℕ :=
  if (1 / TARGET_FPS : ℚ) * 2 < inferenceTime then
    min (interval + 2) MAX_INFERENCE_INTERVAL
  else if inferenceTime < (1 / TARGET_FPS : ℚ) / 2 then
    max (interval - 1) MIN_INFERENCE_INTERVAL
  else interval

/-- Whether `process_frame` runs inference (`RUN`) or re-renders the cached
overlay (`CACHE`). -/
inductive InferenceDecision
  | run
  | useCache
deriving DecidableEq

/-- Per-camera entries of `frames_since_inference` and
`last_detections[camera]['timestamp']`. -/
structure CameraTrack where
  framesSinceInference : ℕ
  lastInferenceTimestamp : ℚ
deriving DecidableEq

/-- The gating logic of `RealtimeYOLOProcessor.process_frame`: initialise a
new camera with counter `0` and timestamp `0`, increment the counter, then
run inference when the counter reaches the interval, or the camera has never
completed an inference (timestamp `0`), or the cache is older than
`detection_cache_duration`.  Returns the decision and the updated track. -/
def process_frame_decision (track? : Option CameraTrack) (interval : ℕ)
    (now : ℚ) : InferenceDecision × CameraTrack :=
  let track := track?.getD ⟨0, 0⟩
  let framesSince := track.framesSinceInference + 1
  if interval ≤ framesSince ∨ track.lastInferenceTimestamp = 0 ∨
      DETECTION_CACHE_DURATION < now - track.lastInferenceTimestamp then
    (.run, ⟨0, now⟩)
  else
    (.useCache, ⟨framesSince, track.lastInferenceTimestamp⟩)

/-! ## Clip-processing worker (`app/routes/websocket.py` together with
`app/core/yolo_runner.py`)

The detection backend is abstracted as the outcome of the model call inside
`run_yolo_on_webm._process`: either annotated bytes plus detections, or a
raised exception.
-/

/-- Outcome of the detection backend for one clip. -/
inductive BackendResult
  | ok (annotated : List ℕ) (detections : List Detection)
  | thrown (msg : String)
deriving DecidableEq

/-- `run_yolo_on_webm._process`: every exception inside the processing body —
including a throwing or malformed detection backend — is caught by the
`except` at the bottom, which returns the *original* clip bytes and no alert
data.  On success the annotated bytes are returned together with the
detections at or above the `0.50` alert threshold (when any exist). -/
def run_yolo_process (webmBytes : List ℕ) (backend : BackendResult) :
    List ℕ × Option (List Detection) :=
  match backend with
  | .thrown _ => (webmBytes, none)
  | .ok annotated dets =>
    let alertDets := dets.filter (fun d => decide ((1 : ℚ)/2 ≤ d.confidence))
    if alertDets.isEmpty then (annotated, none) else (annotated, some alertDets)

/-- The counters of `processing_stats` (the wall-clock timing fields are not
modelled). -/
structure WorkerStats where
  clipsProcessed : ℕ
  clipsFailed : ℕ
deriving DecidableEq

/-- One entry of a per-camera `processed_video_queues` list. -/
structure ProcessedItem where
  clipNumber : ℕ
  videoData : List ℕ
deriving DecidableEq

def MAX_QUEUE_SIZE : ℕ := 3

/-- `add_to_processed_queue`: append, then drop oldest items while the queue
exceeds `MAX_QUEUE_SIZE`. -/
def add_to_processed_queue (queues : List (String × List ProcessedItem))
    (token : String) (item : ProcessedItem) : List (String × List ProcessedItem) :=
  let q := ((dictLookup queues token).getD []) ++ [item]
  dictInsert queues token (q.drop (q.length - MAX_QUEUE_SIZE))

/-- `process_video_clip`: run the clip through `run_yolo_on_webm` (which never
raises — its internal `except` absorbs backend errors and yields the original
bytes), count the clip as processed, and add the result to the camera's
processed queue.  The `except` branch of `process_video_clip` that increments
`clips_failed` is reached only by failures outside the runner (e.g. in queue
handling), never by a detection-backend throw. -/
def process_video_clip (task : InferenceTask) (backend : BackendResult)
    (stats : WorkerStats) (queues : List (String × List ProcessedItem)) :
    WorkerStats × List (String × List ProcessedItem) :=
  let outBytes := (run_yolo_process task.videoData backend).1
  ({ stats with clipsProcessed := stats.clipsProcessed + 1 },
   add_to_processed_queue queues task.token ⟨task.clipNumber, outBytes⟩)

/-- `video_processing_worker`: consume the queued tasks one after the other,
each exactly once; errors never stop the loop. -/
def worker_run (tasks : List (InferenceTask × BackendResult))
    (stats : WorkerStats) (queues : List (String × List ProcessedItem)) :
    WorkerStats × List (String × List ProcessedItem) :=
  tasks.foldl (fun acc tb => process_video_clip tb.1 tb.2 acc.1 acc.2) (stats, queues)

/-! ## Helper lemmas: alert engine -/

theorem countChannel_nil (ch : Channel) : countChannel ch [] = 0 := rfl

theorem countChannel_cons (ch : Channel) (e : AlertEvent) (evs : List AlertEvent) :
    countChannel ch (e :: evs) =
      (if channelEq e.channel ch then 1 else 0) + countChannel ch evs := by
  by_cases h : channelEq e.channel ch = true
  · simp [countChannel, List.filter, h, Nat.add_comm]
  · simp [countChannel, List.filter, Bool.eq_false_iff.mpr h]

theorem dangerous_loop_count_official (b : Bool) (loc : String) (t : ℕ) :
    ∀ (ds : List Detection) (cache : AlertCache),
      countChannel .official (process_dangerous_loop b loc t ds cache).1 = ds.length := by
  intro ds
  induction ds with
  | nil => intro cache; simp [process_dangerous_loop, countChannel_nil]
  | cons d ds ih =>
    intro cache
    cases b <;>
      simp [process_dangerous_loop, countChannel_cons, channelEq, ih, Nat.add_comm]

theorem dangerous_loop_count_civilian (b : Bool) (loc : String) (t : ℕ) :
    ∀ (ds : List Detection) (cache : AlertCache),
      countChannel .civilian (process_dangerous_loop b loc t ds cache).1 =
        if b then ds.length else 0 := by
  intro ds
  induction ds with
  | nil => intro cache; simp [process_dangerous_loop, countChannel_nil]
  | cons d ds ih =>
    intro cache
    cases b <;>
      simp [process_dangerous_loop, countChannel_cons, channelEq, ih, Nat.add_comm]

theorem endangered_loop_count_official (b : Bool) (loc : String) (t : ℕ) :
    ∀ (ds : List Detection) (cache : AlertCache),
      countChannel .official (process_endangered_loop b loc t ds cache).1 =
        if b then ds.length else 0 := by
  intro ds
  induction ds with
  | nil => intro cache; simp [process_endangered_loop, countChannel_nil]
  | cons d ds ih =>
    intro cache
    cases b <;>
      simp [process_endangered_loop, countChannel_cons, channelEq, ih, Nat.add_comm]

theorem endangered_loop_count_civilian (b : Bool) (loc : String) (t : ℕ) :
    ∀ (ds : List Detection) (cache : AlertCache),
      countChannel .civilian (process_endangered_loop b loc t ds cache).1 = 0 := by
  intro ds
  induction ds with
  | nil => intro cache; simp [process_endangered_loop, countChannel_nil]
  | cons d ds ih =>
    intro cache
    cases b <;>
      simp [process_endangered_loop, countChannel_cons, channelEq, ih]

theorem dangerous_loop_events_length (b : Bool) (loc : String) (t : ℕ) :
    ∀ (ds : List Detection) (cache : AlertCache),
      (process_dangerous_loop b loc t ds cache).1.length =
        if b then 2 * ds.length else ds.length := by
  intro ds
  induction ds with
  | nil => intro cache; cases b <;> simp [process_dangerous_loop]
  | cons d ds ih =>
    intro cache
    cases b with
    | false => simp [process_dangerous_loop, ih]
    | true => simp [process_dangerous_loop, ih]; omega

theorem endangered_loop_events_length (b : Bool) (loc : String) (t : ℕ) :
    ∀ (ds : List Detection) (cache : AlertCache),
      (process_endangered_loop b loc t ds cache).1.length =
        if b then ds.length else 0 := by
  intro ds
  induction ds with
  | nil => intro cache; cases b <;> simp [process_endangered_loop]
  | cons d ds ih =>
    intro cache
    cases b <;> simp [process_endangered_loop, ih]

/-- The two key families of `_alert_cache` never collide. -/
theorem civilian_key_ne_official_key (loc : String) :
    ("civilian_" ++ loc) ≠ ("official_" ++ loc) := by
  intro h
  have hd := congrArg String.data h
  rw [String.data_append, String.data_append] at hd
  have hlen : ("civilian_".data).length = ("official_".data).length := by decide
  have := (List.append_inj hd hlen).1
  exact absurd this (by decide)

/-- The dangerous-animal loop only refreshes the civilian cache key, so the
official-channel cooldown state for the same location is untouched. -/
theorem dangerous_loop_preserves_official_lookup (b : Bool) (loc : String) (t : ℕ) :
    ∀ (ds : List Detection) (cache : AlertCache),
      dictLookup (process_dangerous_loop b loc t ds cache).2 ("official_" ++ loc) =
        dictLookup cache ("official_" ++ loc) := by
  intro ds
  induction ds with
  | nil => intro cache; simp [process_dangerous_loop]
  | cons d ds ih =>
    intro cache
    cases b with
    | false => simpa [process_dangerous_loop] using ih cache
    | true =>
      simp only [process_dangerous_loop, reduceIte]
      rw [ih, update_alert_cache,
        dictLookup_insert_ne _ _ _ _ (civilian_key_ne_official_key loc)]

theorem dangerous_loop_preserves_can_official (b : Bool) (loc : String) (t t' : ℕ)
    (ds : List Detection) (cache : AlertCache) :
    can_send_official_alert (process_dangerous_loop b loc t ds cache).2 loc t' =
      can_send_official_alert cache loc t' := by
  simp only [can_send_official_alert, dangerous_loop_preserves_official_lookup]

theorem can_send_civilian_alert_nil (loc : String) (t : ℕ) :
    can_send_civilian_alert [] loc t = true := by
  simp [can_send_civilian_alert, dictLookup]

/-- Evaluating `send_alert_message` on a single dangerous detection at or
above the alert threshold. -/
theorem send_alert_single_dangerous (cache : AlertCache) (loc : String)
    (d : Detection) (t : ℕ) (hd : isDangerousAnimal d.classId = true)
    (hc : (1 : ℚ)/2 ≤ d.confidence) :
    send_alert_message cache loc [d] t =
      if can_send_civilian_alert cache loc t then
        ([⟨.official, loc, d.classId, d.confidence, t⟩,
          ⟨.civilian, loc, d.classId, d.confidence, t⟩],
         update_alert_cache cache loc t)
      else ([⟨.official, loc, d.classId, d.confidence, t⟩], cache) := by
  have hc' : (2⁻¹ : ℚ) ≤ d.confidence := by rwa [one_div] at hc
  have hcat : categorize_detections [d] = ([d], []) := by
    simp [categorize_detections, hd, hc', not_lt.mpr hc']
  cases hcan : can_send_civilian_alert cache loc t <;>
    simp [send_alert_message, hcat, process_dangerous_animal_alerts, hcan,
      process_dangerous_loop]

/-! ## Claims C1 – C3 -/

/-- C1 (counterexample).  The claimed invariant "no two sends for the same
`(channel, location)` key within the cooldown window" fails inside a single
processing cycle: `can_alert_civilians` is computed once before the loop of
`_process_dangerous_animal_alerts`, so a cycle carrying two dangerous
detections for the same location performs two civilian-channel sends at the
same timestamp — not exactly one. -/
theorem alert_cooldown_within_cycle_counterexample :
    countChannel .civilian
      (send_alert_message [] "loc" [⟨0, 9/10⟩, ⟨3, 8/10⟩] 100).1 = 2 ∧
    countChannel .civilian
      (send_alert_message [] "loc" [⟨0, 9/10⟩, ⟨3, 8/10⟩] 100).1 ≠ 1 := by
  have h : countChannel .civilian
      (send_alert_message [] "loc" [⟨0, 9/10⟩, ⟨3, 8/10⟩] 100).1 = 2 := by
    norm_num [send_alert_message, categorize_detections, isDangerousAnimal,
      isEndangeredAnimal, process_dangerous_animal_alerts, process_dangerous_loop,
      process_endangered_animal_alerts, process_endangered_loop,
      can_send_civilian_alert, can_send_official_alert, update_alert_cache,
      update_official_alert_cache, dictLookup, dictInsert, countChannel,
      channelEq, ALERT_COOLDOWN_MINUTES, List.find?, List.filter]
  exact ⟨h, by rw [h]; omega⟩

/-- C1 (amended): across separate processing cycles each carrying a single
dangerous detection for the same location, the civilian cooldown behaves as
claimed: two cycles within the 5-minute window produce exactly one
civilian-channel send, and a further cycle after the window has elapsed
produces a second one. -/
theorem alert_cooldown_single_detection_cycles
    (d : Detection) (loc : String) (t1 t2 t3 : ℕ)
    (hd : isDangerousAnimal d.classId = true)
    (hc : (1 : ℚ)/2 ≤ d.confidence)
    (h12 : t2 - t1 < ALERT_COOLDOWN_MINUTES)
    (h13 : ALERT_COOLDOWN_MINUTES ≤ t3 - t1) :
    countChannel .civilian (send_alert_message [] loc [d] t1).1 = 1 ∧
    countChannel .civilian
      (send_alert_message (send_alert_message [] loc [d] t1).2 loc [d] t2).1 = 0 ∧
    countChannel .civilian
      (send_alert_message
        (send_alert_message (send_alert_message [] loc [d] t1).2 loc [d] t2).2
        loc [d] t3).1 = 1 := by
  have e1 := send_alert_single_dangerous [] loc d t1 hd hc
  rw [can_send_civilian_alert_nil] at e1
  simp only [if_true] at e1
  have hcan2 : can_send_civilian_alert (update_alert_cache [] loc t1) loc t2 = false := by
    simp [can_send_civilian_alert, update_alert_cache, dictInsert, dictLookup,
      List.find?, h12]
  have e2 := send_alert_single_dangerous (update_alert_cache [] loc t1) loc d t2 hd hc
  rw [hcan2] at e2
  simp only [Bool.false_eq_true, if_false] at e2
  have hcan3 : can_send_civilian_alert (update_alert_cache [] loc t1) loc t3 = true := by
    simp [can_send_civilian_alert, update_alert_cache, dictInsert, dictLookup,
      List.find?, Nat.not_lt.mpr h13]
  have e3 := send_alert_single_dangerous (update_alert_cache [] loc t1) loc d t3 hd hc
  rw [hcan3] at e3
  simp only [if_true] at e3
  rw [e1]
  simp only
  rw [e2]
  simp only
  rw [e3]
  simp [countChannel_cons, countChannel_nil, channelEq]

/-- C1 witness. -/
theorem alert_cooldown_single_detection_cycles_witness :
    countChannel .civilian (send_alert_message [] "loc" [⟨0, 9/10⟩] 0).1 = 1 ∧
    countChannel .civilian
      (send_alert_message (send_alert_message [] "loc" [⟨0, 9/10⟩] 0).2
        "loc" [⟨0, 9/10⟩] 4).1 = 0 ∧
    countChannel .civilian
      (send_alert_message
        (send_alert_message (send_alert_message [] "loc" [⟨0, 9/10⟩] 0).2
          "loc" [⟨0, 9/10⟩] 4).2
        "loc" [⟨0, 9/10⟩] 7).1 = 1 :=
  alert_cooldown_single_detection_cycles ⟨0, 9/10⟩ "loc" 0 4 7
    (by decide) (by norm_num) (by decide) (by decide)

/-- C2 (counterexample).  For a dangerous-tier detection the official-channel
attempt is *not* subject to the `(official-channel, location)` cooldown: with
the official cooldown still active for the location, a dangerous detection
still produces an official-channel send. -/
theorem dangerous_official_ignores_cooldown_counterexample :
    can_send_official_alert [("official_loc", 10)] "loc" 11 = false ∧
    countChannel .official
      (send_alert_message [("official_loc", 10)] "loc" [⟨0, 9/10⟩] 11).1 = 1 := by
  constructor
  · decide
  · norm_num [send_alert_message, categorize_detections, isDangerousAnimal,
      isEndangeredAnimal, process_dangerous_animal_alerts, process_dangerous_loop,
      process_endangered_animal_alerts, process_endangered_loop,
      can_send_civilian_alert, can_send_official_alert, update_alert_cache,
      update_official_alert_cache, dictLookup, dictInsert, countChannel,
      channelEq, ALERT_COOLDOWN_MINUTES, List.find?, List.filter]

/-- C2 (amended): every dangerous-tier detection handed to
`_process_dangerous_animal_alerts` produces an official-channel attempt
*unconditionally* (no cooldown is consulted for it), plus a civilian-channel
attempt per detection exactly when the civilian cooldown allows; every
endangered-tier detection produces no civilian-channel attempt, and an
official-channel attempt exactly when the official cooldown allows. -/
theorem severity_routing_in_code (cache : AlertCache) (loc : String)
    (dets : List Detection) (t : ℕ) :
    countChannel .official (process_dangerous_animal_alerts cache loc dets t).1 =
      dets.length ∧
    countChannel .civilian (process_dangerous_animal_alerts cache loc dets t).1 =
      (if can_send_civilian_alert cache loc t then dets.length else 0) ∧
    countChannel .civilian (process_endangered_animal_alerts cache loc dets t).1 = 0 ∧
    countChannel .official (process_endangered_animal_alerts cache loc dets t).1 =
      (if can_send_official_alert cache loc t then dets.length else 0) := by
  simp only [process_dangerous_animal_alerts, process_endangered_animal_alerts]
  exact ⟨dangerous_loop_count_official _ loc t dets cache,
    dangerous_loop_count_civilian _ loc t dets cache,
    endangered_loop_count_civilian _ loc t dets cache,
    endangered_loop_count_official _ loc t dets cache⟩

/-- C3 (counterexample).  The engine does not restrict alerting to the single
highest-confidence detection of the cycle: with two dangerous detections of
confidences 0.9 (class 0) and 0.8 (class 1), an official-channel alert for
the lower-confidence class-1 detection is also produced. -/
theorem alerts_not_limited_to_highest_counterexample :
    (⟨.official, "loc", 1, 8/10, 0⟩ : AlertEvent) ∈
      (send_alert_message [] "loc" [⟨0, 9/10⟩, ⟨1, 8/10⟩] 0).1 ∧
    ((8 : ℚ)/10 < 9/10) := by
  constructor
  · norm_num [send_alert_message, categorize_detections, isDangerousAnimal,
      isEndangeredAnimal, process_dangerous_animal_alerts, process_dangerous_loop,
      process_endangered_animal_alerts, process_endangered_loop,
      can_send_civilian_alert, can_send_official_alert, update_alert_cache,
      update_official_alert_cache, dictLookup, dictInsert,
      ALERT_COOLDOWN_MINUTES, List.find?]
  · norm_num

/-- C3 (amended): each cycle alerts on *every* detection that survives the
tier/threshold categorisation, in both buckets: one official event per
dangerous detection plus one civilian event per dangerous detection when the
civilian cooldown allows, plus one official event per endangered detection
when the official cooldown allows. -/
theorem engine_alerts_every_detection (cache : AlertCache) (loc : String)
    (dets : List Detection) (t : ℕ) :
    (send_alert_message cache loc dets t).1.length =
      (if can_send_civilian_alert cache loc t then
        2 * (categorize_detections dets).1.length
       else (categorize_detections dets).1.length) +
      (if can_send_official_alert cache loc t then
        (categorize_detections dets).2.length
       else 0) := by
  simp only [send_alert_message]
  cases hdd : (categorize_detections dets).1.isEmpty with
  | true =>
    have hdd' : (categorize_detections dets).1 = [] := by
      simpa using hdd
    cases hed : (categorize_detections dets).2.isEmpty with
    | true =>
      have hed' : (categorize_detections dets).2 = [] := by
        simpa using hed
      simp [hdd, hed, hdd', hed']
    | false =>
      simp only [hdd, hed, if_true, Bool.false_eq_true, if_false,
        List.nil_append, List.length_nil]
      simp only [process_endangered_animal_alerts]
      rw [endangered_loop_events_length]
      simp [hdd']
  | false =>
    cases hed : (categorize_detections dets).2.isEmpty with
    | true =>
      simp only [hdd, hed, Bool.false_eq_true, if_false, if_true]
      simp only [process_dangerous_animal_alerts]
      rw [List.append_nil, dangerous_loop_events_length]
      have hed' : (categorize_detections dets).2 = [] := by
        simpa using hed
      simp [hed']
    | false =>
      simp only [hdd, hed, Bool.false_eq_true, if_false]
      simp only [process_dangerous_animal_alerts, process_endangered_animal_alerts,
        List.length_append]
      rw [dangerous_loop_events_length, endangered_loop_events_length,
        dangerous_loop_preserves_can_official]

/-! ## Helper lemmas: clip assembly -/

theorem dictLookup_pop_self {α : Type} (d : List (String × α)) (key : String) :
    dictLookup (dictPop d key) key = none := by
  induction d with
  | nil => rfl
  | cons p d ih =>
    by_cases h : (p.1 == key) = true
    · simpa [dictPop, List.filter, h] using ih
    · have h' : (p.1 == key) = false := by
        simpa using h
      rw [dictPop] at ih ⊢
      simp [List.filter, dictLookup, List.find?, h', ih]

theorem assembleInto_spec (cs : List (List ℕ)) :
    ∀ (done : List ℕ),
      assembleInto cs (done ++ List.replicate ((cs.map List.length).sum) 0) done.length
        = done ++ cs.flatten := by
  induction cs with
  | nil => intro done; simp [assembleInto]
  | cons c cs ih =>
    intro done
    have hsum : (List.map List.length (c :: cs)).sum =
        c.length + (List.map List.length cs).sum := by
      simp
    have hbuf :
        done ++ List.replicate ((List.map List.length (c :: cs)).sum) 0 =
          done ++ (List.replicate c.length 0 ++
            List.replicate ((List.map List.length cs).sum) 0) := by
      rw [hsum, List.replicate_add]
    have hwrite :
        writeChunkAt
            (done ++ (List.replicate c.length 0 ++
              List.replicate ((List.map List.length cs).sum) 0))
            done.length c =
          (done ++ c) ++ List.replicate ((List.map List.length cs).sum) 0 := by
      unfold writeChunkAt
      rw [List.take_left, ← List.drop_drop, List.drop_left]
      rw [List.drop_left' (by simp)]
    calc assembleInto (c :: cs)
          (done ++ List.replicate ((List.map List.length (c :: cs)).sum) 0) done.length
        = assembleInto cs
            ((done ++ c) ++ List.replicate ((List.map List.length cs).sum) 0)
            (done.length + c.length) := by
          rw [hbuf]
          show assembleInto cs
            (writeChunkAt
              (done ++ (List.replicate c.length 0 ++
                List.replicate ((List.map List.length cs).sum) 0))
              done.length c)
            (done.length + c.length) = _
          rw [hwrite]
      _ = done ++ (c :: cs).flatten := by
          have hlen : done.length + c.length = (done ++ c).length := by
            simp
          rw [hlen, ih (done ++ c)]
          simp [List.append_assoc]

theorem assemble_chunks_eq_flatten (chunks : List (List ℕ)) :
    assemble_chunks chunks = chunks.flatten := by
  simpa [assemble_chunks] using assembleInto_spec chunks []

/-- Receiving binary chunks only appends to the pending clip's chunk list:
queue, received-clip counter, and the rest of the state are untouched. -/
theorem run_binary_chunks (token : String) :
    ∀ (cs : List (List ℕ)) (st : IngestState) (pc : PendingClip),
      dictLookup st.pending token = some pc →
      dictLookup (camera_message_run st token (cs.map .binaryChunk)).pending token =
          some { pc with
            chunks := pc.chunks ++ cs,
            receivedChunks := pc.receivedChunks + cs.length } ∧
        (camera_message_run st token (cs.map .binaryChunk)).queue = st.queue ∧
        (camera_message_run st token (cs.map .binaryChunk)).clipsReceived =
          st.clipsReceived := by
  intro cs
  induction cs with
  | nil =>
    intro st pc h
    simpa [camera_message_run] using h
  | cons c cs ih =>
    intro st pc h
    have hstep :
        camera_message_step st token (.binaryChunk c) =
          { st with
            pending := dictInsert st.pending token
              { pc with
                chunks := pc.chunks ++ [c],
                receivedChunks := pc.receivedChunks + 1 } } := by
      simp [camera_message_step, handle_camera_binary_message, h]
    have hrun :
        camera_message_run st token ((c :: cs).map .binaryChunk) =
          camera_message_run (camera_message_step st token (.binaryChunk c)) token
            (cs.map .binaryChunk) := by
      simp [camera_message_run]
    rw [hrun, hstep]
    have := ih
      { st with
        pending := dictInsert st.pending token
          { pc with
            chunks := pc.chunks ++ [c],
            receivedChunks := pc.receivedChunks + 1 } }
      { pc with
        chunks := pc.chunks ++ [c],
        receivedChunks := pc.receivedChunks + 1 }
      (dictLookup_insert_self _ _ _)
    have h1 : pc.chunks ++ (c :: cs) = (pc.chunks ++ [c]) ++ cs := by
      simp
    simp only [List.length_cons]
    have h2 : pc.receivedChunks + (cs.length + 1) =
        pc.receivedChunks + 1 + cs.length := by
      omega
    rw [h1, h2]
    exact this

/-! ## Claims C4, C5, C10 -/

/-- C4: a clip announced by `video_metadata(seq = s)`, followed by binary
chunks in arrival order and a matching `video_complete(seq = s)`, enqueues
exactly one `InferenceTask` whose payload is the concatenation of the chunks
in arrival order, and clears the pending assembly. -/
theorem clip_roundtrip (st : IngestState) (token : String) (s sz : ℕ)
    (chunks : List (List ℕ)) :
    (camera_message_run st token
        (.videoMetadata s sz :: (chunks.map .binaryChunk ++ [.videoComplete s]))).queue =
      st.queue ++ [⟨token, chunks.flatten, s⟩] ∧
    dictLookup (camera_message_run st token
        (.videoMetadata s sz :: (chunks.map .binaryChunk ++ [.videoComplete s]))).pending
      token = none := by
  have hrun :
      camera_message_run st token
          (.videoMetadata s sz :: (chunks.map .binaryChunk ++ [.videoComplete s])) =
        camera_message_step
          (camera_message_run
            (camera_message_step st token (.videoMetadata s sz)) token
            (chunks.map .binaryChunk))
          token (.videoComplete s) := by
    simp only [camera_message_run, List.foldl_cons, List.foldl_append, List.foldl_nil]
  set st1 := camera_message_step st token (.videoMetadata s sz) with hst1
  have hlook1 : dictLookup st1.pending token = some ⟨s, [], 0, 0⟩ := by
    simp [hst1, camera_message_step, handle_camera_text_message, dictLookup_insert_self]
  obtain ⟨hlook2, hqueue2, _⟩ := run_binary_chunks token chunks st1 ⟨s, [], 0, 0⟩ hlook1
  have hqueue1 : st1.queue = st.queue := by
    simp [hst1, camera_message_step, handle_camera_text_message]
  rw [hrun]
  set st2 := camera_message_run st1 token (chunks.map .binaryChunk) with hst2
  have hfin :
      camera_message_step st2 token (.videoComplete s) =
        { st2 with
          queue := st2.queue ++ [⟨token, assemble_chunks chunks, s⟩],
          pending := dictPop st2.pending token } := by
    simp only [camera_message_step, handle_camera_text_message, finalize_video_clip]
    rw [hlook2]
    simp
  rw [hfin]
  refine ⟨?_, ?_⟩
  · rw [hqueue2, hqueue1, assemble_chunks_eq_flatten]
  · exact dictLookup_pop_self _ _

/-- C5 (counterexample).  After `video_metadata(seq = 5)`, one chunk, and a
mismatched `video_complete(seq = 6)`, no task is submitted — but the pending
clip is *not* discarded: its assembly buffer is still registered for the
camera token. -/
theorem clip_mismatch_counterexample :
    (camera_message_run ⟨[], [], 0⟩ "cam"
        [.videoMetadata 5 100, .binaryChunk [1, 2, 3], .videoComplete 6]).queue = [] ∧
    dictLookup (camera_message_run ⟨[], [], 0⟩ "cam"
        [.videoMetadata 5 100, .binaryChunk [1, 2, 3], .videoComplete 6]).pending
      "cam" = some ⟨5, [[1, 2, 3]], 0, 1⟩ ∧
    ¬ dictLookup (camera_message_run ⟨[], [], 0⟩ "cam"
        [.videoMetadata 5 100, .binaryChunk [1, 2, 3], .videoComplete 6]).pending
      "cam" = none := by
  decide

/-- C5 (amended): a `video_complete` whose sequence number does not match the
pending clip's leaves the ingestion state entirely unchanged: an error is
logged and no `InferenceTask` is submitted, but the pending assembly buffer
is kept (it is only replaced by a later `video_metadata` or dropped on
disconnect). -/
theorem clip_mismatch_keeps_pending (st : IngestState) (token : String)
    (pc : PendingClip) (n : ℕ) (h : dictLookup st.pending token = some pc)
    (hne : pc.clipNumber ≠ n) :
    finalize_video_clip st token n = st := by
  simp [finalize_video_clip, h, hne]

/-- C5 witness. -/
theorem clip_mismatch_keeps_pending_witness :
    finalize_video_clip ⟨[("cam", ⟨5, [[1, 2, 3]], 0, 1⟩)], [], 1⟩ "cam" 6 =
      ⟨[("cam", ⟨5, [[1, 2, 3]], 0, 1⟩)], [], 1⟩ :=
  clip_mismatch_keeps_pending _ "cam" ⟨5, [[1, 2, 3]], 0, 1⟩ 6 (by decide) (by decide)

/-- C10: a `video_metadata` control message unconditionally replaces whatever
clip assembly was pending for the token with a fresh, empty one, and submits
no task for the discarded chunks (the task queue is untouched). -/
theorem metadata_replaces_pending (st : IngestState) (token : String) (n sz : ℕ) :
    dictLookup (handle_camera_text_message st token (.videoMetadata n sz)).pending
      token = some ⟨n, [], 0, 0⟩ ∧
    (handle_camera_text_message st token (.videoMetadata n sz)).queue = st.queue := by
  simp [handle_camera_text_message, dictLookup_insert_self]

/-! ## Claims C6, C7, C8 -/

/-- C6 (counterexample).  `connect_camera` closes a previously registered
transport only when its client state is still CONNECTED: a registered but
already-disconnected prior transport is silently overwritten, with no
"superseded" close call. -/
theorem connect_camera_stale_transport_counterexample :
    dictLookup (⟨[("cam", ⟨1, .disconnected⟩)], []⟩ :
        ConnectionManagerState).activeConnections "cam" = some ⟨1, .disconnected⟩ ∧
    (connect_camera ⟨[("cam", ⟨1, .disconnected⟩)], []⟩ ⟨2, .connected⟩ "cam").2 = [] ∧
    ¬ (⟨1, CLOSE_CODE_SUPERSEDED⟩ : CloseEvent) ∈
      (connect_camera ⟨[("cam", ⟨1, .disconnected⟩)], []⟩ ⟨2, .connected⟩ "cam").2 := by
  decide

/-- C6 (amended): at most one camera transport is registered per token (the
new transport is the only one a lookup can return after `connect_camera`);
when the previously registered transport is still in the CONNECTED state it
is closed with the distinguishable code 4000 before the new transport is
installed, and when it is already disconnected it is replaced without any
close call. -/
theorem connect_camera_supersedes (st : ConnectionManagerState) (ws : Transport)
    (token : String) (old : Transport)
    (h : dictLookup st.activeConnections token = some old) :
    (old.clientState = .connected →
      (connect_camera st ws token).2 = [⟨old.id, CLOSE_CODE_SUPERSEDED⟩]) ∧
    (old.clientState = .disconnected → (connect_camera st ws token).2 = []) ∧
    dictLookup (connect_camera st ws token).1.activeConnections token = some ws := by
  refine ⟨?_, ?_, ?_⟩
  · intro hc
    simp [connect_camera, h, hc]
  · intro hc
    simp [connect_camera, h, hc]
  · simp [connect_camera, dictLookup_insert_self]

/-- C6 witness. -/
theorem connect_camera_supersedes_witness :
    (connect_camera ⟨[("cam", ⟨1, .connected⟩)], []⟩ ⟨2, .connected⟩ "cam").2 =
      [⟨1, CLOSE_CODE_SUPERSEDED⟩] ∧
    dictLookup (connect_camera ⟨[("cam", ⟨1, .connected⟩)], []⟩ ⟨2, .connected⟩
      "cam").1.activeConnections "cam" = some ⟨2, .connected⟩ := by
  have h := connect_camera_supersedes ⟨[("cam", ⟨1, .connected⟩)], []⟩ ⟨2, .connected⟩
    "cam" ⟨1, .connected⟩ (by decide)
  exact ⟨h.1 rfl, h.2.2⟩

theorem adaptive_adjustment_bounds (interval : ℕ) (tme : ℚ)
    (h1 : MIN_INFERENCE_INTERVAL ≤ interval)
    (h2 : interval ≤ MAX_INFERENCE_INTERVAL) :
    MIN_INFERENCE_INTERVAL ≤ adaptive_inference_adjustment interval tme ∧
      adaptive_inference_adjustment interval tme ≤ MAX_INFERENCE_INTERVAL := by
  unfold adaptive_inference_adjustment MIN_INFERENCE_INTERVAL MAX_INFERENCE_INTERVAL at *
  split
  · omega
  · split
    · omega
    · exact ⟨h1, h2⟩

/-- C7: the adaptive controller never lets the inference interval leave
`[min_interval, max_interval] = [5, 30]` over any sequence of adjustments,
and a frame for a camera with no completed inference (cold start) always
yields a `RUN` decision. -/
theorem throttle_bounds_and_cold_start :
    (∀ (interval : ℕ) (times : List ℚ),
      MIN_INFERENCE_INTERVAL ≤ interval → interval ≤ MAX_INFERENCE_INTERVAL →
      MIN_INFERENCE_INTERVAL ≤ times.foldl adaptive_inference_adjustment interval ∧
        times.foldl adaptive_inference_adjustment interval ≤ MAX_INFERENCE_INTERVAL) ∧
    (∀ (interval : ℕ) (now : ℚ),
      (process_frame_decision none interval now).1 = .run) := by
  constructor
  · intro interval times
    induction times generalizing interval with
    | nil =>
      intro h1 h2
      exact ⟨h1, h2⟩
    | cons tme times ih =>
      intro h1 h2
      obtain ⟨h1', h2'⟩ := adaptive_adjustment_bounds interval tme h1 h2
      simpa [List.foldl_cons] using ih (adaptive_inference_adjustment interval tme) h1' h2'
  · intro interval now
    simp [process_frame_decision]

/-- C7 witness. -/
theorem throttle_bounds_and_cold_start_witness :
    (MIN_INFERENCE_INTERVAL ≤
        [(0 : ℚ), 1, 1/100].foldl adaptive_inference_adjustment 15 ∧
      [(0 : ℚ), 1, 1/100].foldl adaptive_inference_adjustment 15 ≤
        MAX_INFERENCE_INTERVAL) ∧
    (process_frame_decision none 15 (37/10)).1 = .run :=
  ⟨throttle_bounds_and_cold_start.1 15 [0, 1, 1/100] (by decide) (by decide),
    throttle_bounds_and_cold_start.2 15 (37/10)⟩

/-- C8 (counterexample).  When the detection backend throws, the task is
*not* dropped and the failure counter is *not* incremented: the runner's
internal `except` returns the original clip bytes, which are delivered to
the camera's processed queue, and the clip is counted as processed. -/
theorem backend_throw_counterexample :
    (process_video_clip ⟨"cam", [1, 2, 3], 7⟩ (.thrown "cuda error")
      ⟨0, 0⟩ []).1.clipsFailed = 0 ∧
    (process_video_clip ⟨"cam", [1, 2, 3], 7⟩ (.thrown "cuda error")
      ⟨0, 0⟩ []).1.clipsProcessed = 1 ∧
    dictLookup (process_video_clip ⟨"cam", [1, 2, 3], 7⟩ (.thrown "cuda error")
      ⟨0, 0⟩ []).2 "cam" = some [⟨7, [1, 2, 3]⟩] ∧
    ¬ dictLookup (process_video_clip ⟨"cam", [1, 2, 3], 7⟩ (.thrown "cuda error")
      ⟨0, 0⟩ []).2 "cam" = none := by
  decide

/-- C8 (amended): a detection-backend throw is caught inside
`run_yolo_on_webm`, which returns the original clip bytes; the task then
completes normally — the original (unannotated) clip is delivered downstream
and counted as processed, and `clips_failed` is untouched.  The worker
consumes every task exactly once and never stops or retries: over any task
list, `clips_processed` grows by exactly the number of tasks and
`clips_failed` does not change. -/
theorem worker_survives_backend_errors :
    (∀ (tasks : List (InferenceTask × BackendResult)) (stats : WorkerStats)
        (queues : List (String × List ProcessedItem)),
      (worker_run tasks stats queues).1.clipsProcessed =
        stats.clipsProcessed + tasks.length ∧
      (worker_run tasks stats queues).1.clipsFailed = stats.clipsFailed) ∧
    (∀ (bytes : List ℕ) (msg : String),
      run_yolo_process bytes (.thrown msg) = (bytes, none)) := by
  constructor
  · intro tasks
    induction tasks with
    | nil =>
      intro stats queues
      simp [worker_run]
    | cons tb tasks ih =>
      intro stats queues
      have hstep : worker_run (tb :: tasks) stats queues =
          worker_run tasks (process_video_clip tb.1 tb.2 stats queues).1
            (process_video_clip tb.1 tb.2 stats queues).2 := by
        simp [worker_run]
      rw [hstep]
      obtain ⟨hp, hf⟩ := ih (process_video_clip tb.1 tb.2 stats queues).1
        (process_video_clip tb.1 tb.2 stats queues).2
      constructor
      · rw [hp]
        simp [process_video_clip]
        omega
      · rw [hf]
        simp [process_video_clip]
  · intro bytes msg
    rfl

/-! ## Claim C9 -/

theorem broadcast_loop_all_ok (l : List ViewerTransport)
    (hconn : ∀ w ∈ l, w.clientState = .connected)
    (hok : ∀ w ∈ l, w.sendOk = true) :
    broadcast_loop l = (l.map ViewerTransport.id, []) := by
  induction l with
  | nil => rfl
  | cons w l ih =>
    have hcw := hconn w (by simp)
    have how := hok w (by simp)
    have ih' := ih (fun x hx => hconn x (by simp [hx])) (fun x hx => hok x (by simp [hx]))
    simp [broadcast_loop, hcw, how, ih']

theorem broadcast_loop_one_bad (l1 l2 : List ViewerTransport) (v : ViewerTransport)
    (hconn : ∀ w ∈ l1 ++ v :: l2, w.clientState = .connected)
    (hok : ∀ w ∈ l1 ++ l2, w.sendOk = true)
    (hbad : v.sendOk = false) :
    broadcast_loop (l1 ++ v :: l2) = ((l1 ++ l2).map ViewerTransport.id, [v]) := by
  induction l1 with
  | nil =>
    have hcv := hconn v (by simp)
    have hrest := broadcast_loop_all_ok l2
      (fun x hx => hconn x (by simp [hx])) (fun x hx => hok x (by simp [hx]))
    simp [broadcast_loop, hcv, hbad, hrest]
  | cons w l1 ih =>
    have hcw := hconn w (by simp)
    have how := hok w (by simp)
    have ih' := ih (fun x hx => hconn x (by simp [hx]))
      (fun x hx => hok x (by
        rcases List.mem_append.mp hx with h | h
        · exact List.mem_append.mpr (Or.inl (by simp [h]))
        · exact List.mem_append.mpr (Or.inr h)))
    simp [broadcast_loop, hcw, how, ih']

/-- C9: a broadcast to a viewer set in which exactly one transport's send
fails (all transports being in the CONNECTED state) removes exactly that one
viewer from the registered set and still delivers the payload to all the
others, in order; send failures are absorbed inside the loop and never
propagate to the caller (`broadcast_to_viewers` is a total function). -/
theorem broadcast_removes_only_broken_viewer
    (viewers : List (String × List ViewerTransport)) (token : String)
    (l1 l2 : List ViewerTransport) (v : ViewerTransport)
    (hview : dictLookup viewers token = some (l1 ++ v :: l2))
    (hconn : ∀ w ∈ l1 ++ v :: l2, w.clientState = .connected)
    (hok : ∀ w ∈ l1 ++ l2, w.sendOk = true)
    (hbad : v.sendOk = false) :
    (broadcast_to_viewers viewers token).2 = (l1 ++ l2).map ViewerTransport.id ∧
    dictLookup (broadcast_to_viewers viewers token).1 token = some (l1 ++ l2) := by
  have hloop := broadcast_loop_one_bad l1 l2 v hconn hok hbad
  have hv1 : v ∉ l1 := by
    intro hm
    rw [hok v (List.mem_append.mpr (Or.inl hm))] at hbad
    exact Bool.noConfusion hbad
  have herase : (l1 ++ v :: l2).erase v = l1 ++ l2 := by
    rw [List.erase_append_right _ hv1, List.erase_cons_head]
  constructor
  · simp [broadcast_to_viewers, hview, hloop]
  · simp [broadcast_to_viewers, hview, hloop, herase, dictLookup_insert_self]

/-- C9 witness. -/
theorem broadcast_removes_only_broken_viewer_witness :
    (broadcast_to_viewers
      [("cam", [⟨1, .connected, true⟩, ⟨2, .connected, false⟩, ⟨3, .connected, true⟩])]
      "cam").2 = [1, 3] ∧
    dictLookup (broadcast_to_viewers
      [("cam", [⟨1, .connected, true⟩, ⟨2, .connected, false⟩, ⟨3, .connected, true⟩])]
      "cam").1 "cam" = some [⟨1, .connected, true⟩, ⟨3, .connected, true⟩] := by
  have h := broadcast_removes_only_broken_viewer
    [("cam", [⟨1, .connected, true⟩, ⟨2, .connected, false⟩, ⟨3, .connected, true⟩])]
    "cam" [⟨1, .connected, true⟩] [⟨3, .connected, true⟩] ⟨2, .connected, false⟩
    (by decide) (by decide) (by decide) rfl
  exact ⟨by rw [h.1]; decide, by rw [h.2]; decide⟩

end RTA
